import Mathlib

/-!
Verification of the Tic-Tac-Toe (five-in-a-row) server, a shallow embedding of
`src/model.py`, `src/server/server.py` and `src/server/process.py`.

Conventions of the embedding:
* Python `int` is `Nat`/`Int`; bytes are `Nat` values (each `< 256` in real buffers).
* Python code that can raise is embedded as `Except PyExn _`; an `.error e`
  result models the exception `e` propagating out of the call.  For calls that
  raise before mutating any field, the receiver object is unchanged at the
  moment of the raise.
* Python `while` loops are embedded with an explicit fuel parameter; running
  out of fuel is the distinguished `PyExn.fuelOut`, which never occurs on the
  executions the theorems speak about.
* Python dicts are embedded as association lists with unique keys
  (`alookup` / `aupdate`); object references held in several containers are
  flattened into an id-keyed heap (the `players` map), as is standard.
-/

namespace TTT

deriving instance DecidableEq for Except

/-- Exceptions a modelled Python call can raise (plus the fuel marker for
embedded `while` loops). -/
inductive PyExn where
  | indexError
  | valueError
  | assertionError
  | fuelOut
  deriving DecidableEq

/-- `model.py` `Symbol(IntEnum)`: BLANK = 0, CROSS = 1, NOUGHT = 2. -/
inductive Symbol where
  | BLANK
  | CROSS
  | NOUGHT
  deriving DecidableEq

/-- The `IntEnum` value of a `Symbol`. -/
def symbolToNat : Symbol → Nat
  | Symbol.BLANK => 0
  | Symbol.CROSS => 1
  | Symbol.NOUGHT => 2

/-- `Symbol(n)` as a checked conversion: `none` models the `ValueError`
raised by the Python enum constructor on an out-of-range value. -/
def symbolOfNat (n : Nat) : Option Symbol :=
  if n = 0 then some Symbol.BLANK
  else if n = 1 then some Symbol.CROSS
  else if n = 2 then some Symbol.NOUGHT
  else none

/-- `model.py` `invertTeam`. -/
def invertTeam (sym : Symbol) : Symbol :=
  if sym = Symbol.CROSS then Symbol.NOUGHT
  else if sym = Symbol.NOUGHT then Symbol.CROSS
  else sym

/-- `model.py` `MoveError(IntEnum)`. -/
inductive MoveError where
  | SUCCESS
  | WRONG_TEAM
  | WRONG_PLACE
  | WRONG_SYMBOL
  | GAME_ALREADY_OVER
  deriving DecidableEq

/-- `model.py` `ProcessResponseError(IntEnum)`. -/
inductive ProcessResponseError where
  | SUCCESS
  | COOKIE_NOT_FOUND
  | GAME_NOT_FOUND
  | PLAYER_NOT_IN_GAME
  | ALREADY_IN_USE
  | OVERLOADED
  deriving DecidableEq

/-- `model.py` `Position`: an integer pair.  The constructor's
`assert x != 0 and y != 0` is modelled at each construction site
(see the request decoders); code that mutates an existing position
(`add`/`addTuple`) performs no assertion, exactly as in the source. -/
structure Position where
  x : Int
  y : Int
  deriving DecidableEq

/-- `Position.addTuple` (via `Position.add`): componentwise addition,
no assertion. -/
def Position.addTuple (p : Position) (v : Int × Int) : Position :=
  { x := p.x + v.1, y := p.y + v.2 }

/-- `model.py` `Board`: `repr` is the list of quarter grids
(`__quartersCount = 4` of them from the constructor), `hash` is the private
`__hash` accumulator (a XOR of per-cell contributions, hence a `Nat`). -/
structure Board where
  repr : List (List (List Symbol))
  hash : Nat
  deriving DecidableEq

/-- `Board.__init__(radius)`: 4 quarters of `radius × radius` blank cells,
hash 0.  (The Python constructor asserts `radius > 0`; theorems that need it
carry `1 ≤ radius` as a hypothesis.) -/
def mkBoard (radius : Nat) : Board :=
  { repr := List.replicate 4 (List.replicate radius (List.replicate radius Symbol.BLANK))
    hash := 0 }

/-- `Board.getRadius`: `len(self.repr[0])`. -/
def Board.getRadius (b : Board) : Nat :=
  (b.repr.headD []).length

/-- `Board.getReprIndex(pos)`: quadrant (1-based, exactly as in the source)
by the signs of `x`, `y`, with in-quadrant indices `|x| - 1`, `|y| - 1`;
`none` when `x = 0` or `y = 0`. -/
def Board.getReprIndex (pos : Position) : Option (Nat × Nat × Nat) :=
  if pos.x > 0 ∧ pos.y > 0 then some (1, pos.x.natAbs - 1, pos.y.natAbs - 1)
  else if pos.x < 0 ∧ pos.y > 0 then some (2, pos.x.natAbs - 1, pos.y.natAbs - 1)
  else if pos.x < 0 ∧ pos.y < 0 then some (3, pos.x.natAbs - 1, pos.y.natAbs - 1)
  else if pos.x > 0 ∧ pos.y < 0 then some (4, pos.x.natAbs - 1, pos.y.natAbs - 1)
  else none

/-- `Board.increaseRadius(radius)`: no-op when the old radius is already
`≥ radius`, otherwise every row of every quarter is extended with blanks and
blank rows are appended up to the new radius.  The Python loops run over
`range(4)` quarters and `range(oldRadius)` rows, which on any
constructor-produced board is exactly all of them, as the `map` does. -/
def Board.increaseRadius (b : Board) (radius : Nat) : Board :=
  if radius ≤ b.getRadius then b
  else
    let difference := radius - b.getRadius
    { b with repr := b.repr.map (fun quarter =>
        quarter.map (fun row => row ++ List.replicate difference Symbol.BLANK)
        ++ List.replicate difference (List.replicate radius Symbol.BLANK)) }

/-- `Board.hashForPos((q, i, j), sym)`: `sym * q**2 * i * j`. -/
def hashForPos (q i j : Nat) (sym : Symbol) : Nat :=
  symbolToNat sym * q ^ 2 * i * j

/-- The triple-nested cell read `self.repr[q][i][j]`; `none` is Python's
`IndexError`. -/
def Board.cellAt (b : Board) (q i j : Nat) : Option Symbol :=
  (b.repr.get? q).bind fun quarter => (quarter.get? i).bind fun row => row.get? j

/-- `Board.setSymbol(pos, sym)`: look up the repr index, XOR the old and the
new cell contribution out of/into the hash, write the cell.  The cell read of
`oldSym` happens first, so an `IndexError` (modelled by `.error`) leaves the
board unchanged. -/
def Board.setSymbol (b : Board) (pos : Position) (sym : Symbol) : Except PyExn Board :=
  match Board.getReprIndex pos with
  | none => .ok b
  | some (q, i, j) =>
    match b.cellAt q i j with
    | none => .error .indexError
    | some oldSym =>
      .ok { repr := b.repr.set q ((b.repr.getD q []).set i
              (((b.repr.getD q []).getD i []).set j sym))
            hash := (b.hash ^^^ hashForPos q i j oldSym) ^^^ hashForPos q i j sym }

/-- `Board.posDifference(pos)`: `max(0, max(|x|, |y|) - radius)`. -/
def Board.posDifference (b : Board) (pos : Position) : Int :=
  max 0 (max (pos.x.natAbs : Int) (pos.y.natAbs : Int) - (b.getRadius : Int))

/-- `Board.fits(pos)`: `posDifference(pos) > 0` — exactly as written in the
source (true only for positions *outside* the current radius). -/
def Board.fits (b : Board) (pos : Position) : Bool :=
  decide (0 < b.posDifference pos)

/-- `Board.makeFit(pos)`: grow to `radius + posDifference(pos)`. -/
def Board.makeFit (b : Board) (pos : Position) : Board :=
  b.increaseRadius (b.getRadius + (b.posDifference pos).toNat)

/-- `Board.getSymbol(pos)`: `None` (the inner `Option`) when `fits` is false
or the position has no quadrant; otherwise the raw cell read, whose
`IndexError` is the `.error` case. -/
def Board.getSymbol (b : Board) (pos : Position) : Except PyExn (Option Symbol) :=
  if b.fits pos then
    match Board.getReprIndex pos with
    | none => .ok none
    | some (q, i, j) =>
      match b.cellAt q i j with
      | some s => .ok (some s)
      | none => .error .indexError
  else .ok none

example : Board.fits (mkBoard 1) ⟨1, 1⟩ = false := by decide
example : Board.fits (mkBoard 1) ⟨2, 2⟩ = true := by decide
example : Board.getSymbol (mkBoard 1) ⟨1, 1⟩ = .ok none := by decide
example : Board.getSymbol (mkBoard 1) ⟨2, 2⟩ = .error .indexError := by decide

/-- `model.py` `Game`: current team, status (winner when over, blank while in
progress), the player list (ids into the process's player heap) and the
board. -/
structure Game where
  players : List Nat
  curTeam : Symbol
  status : Symbol
  board : Board
  deriving DecidableEq

/-- `Game.__init__(players, initRadius)`: cross to move, status blank, fresh
board (whose Python constructor asserts `initRadius > 0`). -/
def Game.init (players : List Nat) (initRadius : Nat) : Game :=
  { players := players
    curTeam := Symbol.CROSS
    status := Symbol.BLANK
    board := mkBoard initRadius }

/-- `Game.makeMove(pos, sym)` from `model.py`, check by check:
game-over, turn, `makeFit` + blank-cell test (`getSymbol(pos) != BLANK`, where
the Python `None` also counts as non-blank), blank-symbol test, then the
mark is placed after the turn is flipped.  A raised exception inside
`getSymbol` / `setSymbol` propagates as `.error`. -/
def Game.makeMove (g : Game) (pos : Position) (sym : Symbol) :
    Except PyExn (MoveError × Game) :=
  if g.status ≠ Symbol.BLANK then .ok (.GAME_ALREADY_OVER, g)
  else if g.curTeam ≠ sym then .ok (.WRONG_TEAM, g)
  else
    match (g.board.makeFit pos).getSymbol pos with
    | .error e => .error e
    | .ok v =>
      if v ≠ some Symbol.BLANK then
        .ok (.WRONG_PLACE, { g with board := g.board.makeFit pos })
      else if sym = Symbol.BLANK then
        .ok (.WRONG_SYMBOL, { g with board := g.board.makeFit pos })
      else
        match (g.board.makeFit pos).setSymbol pos sym with
        | .error e => .error e
        | .ok b2 =>
          .ok (.SUCCESS, { g with curTeam := invertTeam g.curTeam, board := b2 })

/-- Game states reachable from a freshly constructed game by any sequence of
`makeMove` calls (the constructor's assert requires a positive radius). -/
inductive Game.Reachable : Game → Prop where
  | init (players : List Nat) (initRadius : Nat) (h : 1 ≤ initRadius) :
      Game.Reachable (Game.init players initRadius)
  | step (g : Game) (pos : Position) (sym : Symbol) (e : MoveError) (g' : Game)
      (hr : Game.Reachable g) (hm : g.makeMove pos sym = .ok (e, g')) :
      Game.Reachable g'

/-- The inner `while board.fits(cur)` loop of `orientedPass` in
`server/server.py` `ServerBoard.checkStatus`: walk `innerStep` counting
consecutive cells equal to `symbol` (the Python `==` between an
`Optional[Symbol]` and a `Symbol`, i.e. the cell must be `some symbol`),
succeeding once the count reaches `winCount`. -/
def innerPass (b : Board) (innerStep : Int × Int) (symbol : Symbol)
    (winCount : Nat) : Nat → Position → Nat → Except PyExn Bool
  | 0, _, _ => .error .fuelOut
  | fuel + 1, cur, cnt =>
    if b.fits cur then
      match b.getSymbol cur with
      | .error e => .error e
      | .ok v =>
        let cnt1 := if v = some symbol then cnt + 1 else 0
        if winCount ≤ cnt1 then .ok true
        else innerPass b innerStep symbol winCount fuel (cur.addTuple innerStep) cnt1
    else .ok false

/-- The outer `while board.fits(start)` loop of `orientedPass`: run the inner
pass from each start position, stepping `outerStep` between lines. -/
def orientedPass (b : Board) (innerStep outerStep : Int × Int) (symbol : Symbol)
    (winCount : Nat) : Nat → Position → Except PyExn Bool
  | 0, _ => .error .fuelOut
  | fuel + 1, start =>
    if b.fits start then
      match innerPass b innerStep symbol winCount (fuel + 1) start 0 with
      | .error e => .error e
      | .ok true => .ok true
      | .ok false => orientedPass b innerStep outerStep symbol winCount fuel
          (start.addTuple outerStep)
    else .ok false

/-- The `for triple in stepTriples` loop of `checkStatus`: try cross then
nought for each orientation, first hit wins. -/
def checkLoop (fuel : Nat) (b : Board) :
    List ((Int × Int) × (Int × Int) × Position) → Except PyExn Symbol
  | [] => .ok Symbol.BLANK
  | t :: rest =>
    match orientedPass b t.1 t.2.1 Symbol.CROSS 5 fuel t.2.2 with
    | .error e => .error e
    | .ok true => .ok Symbol.CROSS
    | .ok false =>
      match orientedPass b t.1 t.2.1 Symbol.NOUGHT 5 fuel t.2.2 with
      | .error e => .error e
      | .ok true => .ok Symbol.NOUGHT
      | .ok false => checkLoop fuel b rest

/-- `server/server.py` `ServerBoard.checkStatus`: `winCount = 5`, the four
orientation triples (inner step, outer step, start corner) exactly as listed
in the source.  Building `Position(-r, r)` runs the constructor's assert,
which fails when `r = 0`. -/
def checkStatus (fuel : Nat) (b : Board) : Except PyExn Symbol :=
  let r : Int := (b.getRadius : Int)
  if r = 0 then .error .assertionError
  else
    checkLoop fuel b
      [((1, 0), (0, -1), ⟨-r, r⟩),
       ((0, -1), (1, 0), ⟨-r, r⟩),
       ((-1, -1), (1, 0), ⟨-r, r⟩),
       ((1, -1), (-1, 0), ⟨r, r⟩)]

/-- `server/server.py` `ServerGame.makeMove`: delegate to `Game.makeMove` and,
on success, run the win scan and store its result as the status. -/
def ServerGame.makeMove (fuel : Nat) (g : Game) (pos : Position) (sym : Symbol) :
    Except PyExn (MoveError × Game) :=
  match Game.makeMove g pos sym with
  | .error e => .error e
  | .ok (.SUCCESS, g1) =>
    match checkStatus fuel g1.board with
    | .error e => .error e
    | .ok st => .ok (.SUCCESS, { g1 with status := st })
  | .ok (e, g1) => .ok (e, g1)

example : (Game.makeMove (Game.init [] 5) ⟨1, 1⟩ Symbol.CROSS).toOption.map Prod.fst
    = some MoveError.WRONG_PLACE := by decide
example : checkStatus 7 (mkBoard 5) = .ok Symbol.BLANK := by decide

/-- `Board.dumpByteRepr(out)`: one byte per cell, `for q in range(4)`,
`for i in range(radius)`, `for j in range(radius)`, in that order; the cell
reads are in-range on every constructor-produced board, so the `getD`
defaults are dead.  The Python method appends to `out` and returns
`(2 * radius) ** 2`; the embedding returns the appended bytes. -/
def Board.dumpByteRepr (b : Board) : List Nat :=
  (List.range 4).flatMap fun q =>
    (List.range b.getRadius).flatMap fun i =>
      (List.range b.getRadius).map fun j =>
        symbolToNat (((b.repr.getD q []).getD i []).getD j Symbol.BLANK)

/-- Lift an optional value into `Except`, raising `e` on `none`. -/
def exceptOfOption (e : PyExn) : Option α → Except PyExn α
  | some a => .ok a
  | none => .error e

/-- `Board.loadByteRepr(buffer)`: grow to `isqrt(len(buffer)) // 2`, then
fill every cell of the grown board from the buffer in dump order
(`buffer[it]` raising `IndexError` past the end, `Symbol(...)` raising
`ValueError` on a byte that is no symbol).  The sequential iterator `it` of
the source equals `q * r² + i * r + j` here.  A raise leaves the partially
written Python board behind; the embedding only reports the exception, which
is all the theorems below use. -/
def Board.loadByteRepr (b : Board) (buffer : List Nat) : Except PyExn Board := do
  let b1 := b.increaseRadius (Nat.sqrt buffer.length / 2)
  let r := b1.getRadius
  let g ← (List.range 4).mapM fun q =>
    (List.range r).mapM fun i =>
      (List.range r).mapM fun j => do
        let byte ← exceptOfOption .indexError buffer[q * (r * r) + i * r + j]?
        exceptOfOption .valueError (symbolOfNat byte)
  return { repr := g, hash := b1.hash }


/-- `model.py` `ByteView`: a byte buffer plus a cursor.  `takeFirst` slices
(Python slicing never raises; a short buffer just yields fewer bytes) and
advances the cursor. -/
structure ByteView where
  array : List Nat
  shift : Nat
  deriving DecidableEq

/-- `ByteView.getFirst(n)`: `array[shift : shift + n]`. -/
def ByteView.getFirst (v : ByteView) (n : Nat) : List Nat :=
  (v.array.drop v.shift).take n

/-- `ByteView.takeFirst(n)`: the slice plus the advanced view. -/
def ByteView.takeFirst (v : ByteView) (n : Nat) : List Nat × ByteView :=
  (v.getFirst n, { v with shift := v.shift + n })

/-- `int.from_bytes(..., byteorder="big")`; the empty slice gives 0. -/
def intFromBytes (bs : List Nat) : Nat :=
  bs.foldl (fun acc byte => acc * 256 + byte) 0

/-- `ByteView.takeIntFromFirst(n)`. -/
def ByteView.takeIntFromFirst (v : ByteView) (n : Nat) : Nat × ByteView :=
  let (bs, v1) := v.takeFirst n
  (intFromBytes bs, v1)

/-- The decoded form of `model.py` `JoinGameRequest`. -/
structure JoinGameRequest where
  cookie : List Nat
  gameId : Nat
  symbol : Symbol
  deriving DecidableEq

/-- `JoinGameRequest.deserializeFrom(array, length)`: the source's chain of
length checks (each failed check returns `None`, the "not decodable" result);
the final `Symbol(...)` construction raises `ValueError` on a byte pair that
encodes no symbol. -/
def JoinGameRequest.deserializeFrom (v : ByteView) (length : Nat) :
    Except PyExn (Option JoinGameRequest) :=
  if length < 2 then .ok none
  else
    let (cookieLen, v1) := v.takeIntFromFirst 2
    let length1 := length - 2
    if length1 < cookieLen then .ok none
    else
      let (cookie, v2) := v1.takeFirst cookieLen
      let length2 := length1 - cookieLen
      if length2 < 2 then .ok none
      else
        let (gameIdLen, v3) := v2.takeIntFromFirst 2
        let length3 := length2 - 2
        if length3 < gameIdLen then .ok none
        else
          let (gameId, v4) := v3.takeIntFromFirst gameIdLen
          let length4 := length3 - gameIdLen
          if length4 ≠ 2 then .ok none
          else
            let (symByte, _) := v4.takeIntFromFirst 2
            match symbolOfNat symByte with
            | some s => .ok (some { cookie := cookie, gameId := gameId, symbol := s })
            | none => .error .valueError

/-- The decoded form of `model.py` `MakeMoveRequest`. -/
structure MakeMoveRequest where
  cookie : List Nat
  position : Position
  deriving DecidableEq

/-- `MakeMoveRequest.deserializeFrom(array, length)`: length checks as in the
source, then `Position(x, y)` whose constructor asserts `x != 0 and y != 0`
(an `AssertionError` on a zero coordinate; both coordinates are read as
unsigned 4-byte integers). -/
def MakeMoveRequest.deserializeFrom (v : ByteView) (length : Nat) :
    Except PyExn (Option MakeMoveRequest) :=
  if length < 2 then .ok none
  else
    let (cookieLen, v1) := v.takeIntFromFirst 2
    let length1 := length - 2
    if length1 < cookieLen then .ok none
    else
      let (cookie, v2) := v1.takeFirst cookieLen
      let length2 := length1 - cookieLen
      if length2 < 4 then .ok none
      else
        let (x, v3) := v2.takeIntFromFirst 4
        let length3 := length2 - 4
        if length3 ≠ 4 then .ok none
        else
          let (y, _) := v3.takeIntFromFirst 4
          if x = 0 ∨ y = 0 then .error .assertionError
          else .ok (some { cookie := cookie, position := ⟨(x : Int), (y : Int)⟩ })

example : MakeMoveRequest.deserializeFrom ⟨[0, 0, 0, 0, 0, 0, 0, 0, 0, 1], 0⟩ 10
    = .error .assertionError := by decide
example : JoinGameRequest.deserializeFrom ⟨[0, 0, 0, 0, 0, 5], 0⟩ 6
    = .error .valueError := by decide
example : (MakeMoveRequest.deserializeFrom ⟨[0, 0, 0, 0, 0, 2, 0, 0, 0, 1], 0⟩ 10)
    = .ok (some ⟨[], ⟨2, 1⟩⟩) := by decide

/-- `model.py` `Player`: `gameId` starts at `-1` ("not in a game"), hence an
`Int`. -/
structure Player where
  id : Nat
  gameId : Int
  name : String
  sym : Symbol
  deriving DecidableEq

/-- Association-list lookup, the embedding of a Python dict read. -/
def alookup {α β : Type} [DecidableEq α] (k : α) : List (α × β) → Option β
  | [] => none
  | (a, b) :: t => if a = k then some b else alookup k t

/-- Association-list update of an existing key, the embedding of a Python
dict write to a key that is already present. -/
def aupdate {α β : Type} [DecidableEq α] (k : α) (v : β) (l : List (α × β)) :
    List (α × β) :=
  l.map fun p => if p.1 = k then (k, v) else p

/-- `server/process.py` `ServerProcess` state: games by id, the player heap by
id, the next fresh player id, cookie → player (a reference in the source,
here the player's id into the heap) and cookie → issuance time. -/
structure ServerProcess where
  games : List (Nat × Game)
  players : List (Nat × Player)
  nextPlayerId : Nat
  cookieToPlayer : List (List Nat × Nat)
  cookies : List (List Nat × Int)
  deriving DecidableEq

/-- `ServerProcess.cookieTimeout = 600`. -/
def cookieTimeout : Int := 600

/-- `ServerProcess.cleanupOldCookies`: collect every cookie with
`actuality - now > cookieTimeout` (exactly as in the source) and delete the
collected ones, which is a filter keeping the rest; `players` and `games`
are untouched. -/
def cleanupOldCookies (st : ServerProcess) (now : Int) : ServerProcess :=
  { st with cookies := st.cookies.filter fun c => ¬(c.2 - now > cookieTimeout) }

/-- The list the source builds in `joinGame`:
`filter(lambda x: x is not Symbol.BLANK, [player.sym for player in game.players])`,
with the player references resolved through the heap. -/
def occupantSymbols (players : List (Nat × Player)) (game : Game) : List Symbol :=
  (game.players.filterMap fun q => (alookup q players).map Player.sym).filter
    fun s => s ≠ Symbol.BLANK

/-- The decoded form of `model.py` `JoinGameResponse`. -/
structure JoinGameResponse where
  verdict : ProcessResponseError
  board : Option (List Nat)
  chosenSymbol : Option Symbol
  deriving DecidableEq

/-- `server/process.py` `ServerProcess.joinGame`: resolve the cookie, check
the game id, then — before any further check — set the player's `gameId`;
reject with ALREADY_IN_USE when a concrete symbol is requested and some
occupant already holds one; otherwise choose the symbol (complement of the
first occupant's on a blank request, else the coin flip `pick` standing for
`secrets.choice([CROSS, NOUGHT])`, else the requested symbol), record it,
append the player to the game and return the board dump.
The inner `none` branch for the player heap is unreachable: the Python map
holds the `Player` object itself. -/
def joinGame (st : ServerProcess) (cookie : List Nat) (gameId : Nat)
    (symbol : Symbol) (pick : Bool) : JoinGameResponse × ServerProcess :=
  match alookup cookie st.cookieToPlayer with
  | none => (⟨.COOKIE_NOT_FOUND, none, none⟩, st)
  | some pid =>
    match alookup gameId st.games with
    | none => (⟨.GAME_NOT_FOUND, none, none⟩, st)
    | some game =>
      match alookup pid st.players with
      | none => (⟨.COOKIE_NOT_FOUND, none, none⟩, st)
      | some player =>
        let st1 := { st with
          players := aupdate pid { player with gameId := (gameId : Int) } st.players }
        let symbols := occupantSymbols st1.players game
        if symbol ≠ Symbol.BLANK ∧ symbols ≠ [] then
          (⟨.ALREADY_IN_USE, none, none⟩, st1)
        else
          let chosenSymbol :=
            if symbol = Symbol.BLANK then
              match symbols with
              | s :: _ => invertTeam s
              | [] => if pick then Symbol.CROSS else Symbol.NOUGHT
            else symbol
          let st2 := { st1 with
            players := aupdate pid
              { player with gameId := (gameId : Int), sym := chosenSymbol } st1.players }
          let game1 := { game with players := game.players ++ [pid] }
          let st3 := { st2 with games := aupdate gameId game1 st2.games }
          (⟨.SUCCESS, some game1.board.dumpByteRepr, some chosenSymbol⟩, st3)

/-! ### Theorems about the claims -/

/-- A board of radius 5 whose first quadrant holds a horizontal line of five
crosses at (1,1), (2,1), (3,1), (4,1), (5,1) (repr index `(1, k-1, 0)`); its
hash is 0 because every contribution of a cell with `j = 0` vanishes. -/
def fiveRowBoard : Board :=
  { repr := [List.replicate 5 (List.replicate 5 Symbol.BLANK),
             List.replicate 5 (Symbol.CROSS :: List.replicate 4 Symbol.BLANK),
             List.replicate 5 (List.replicate 5 Symbol.BLANK),
             List.replicate 5 (List.replicate 5 Symbol.BLANK)]
    hash := 0 }

/-- C1.  The win scan does *not* detect a line of five: `fiveRowBoard` is
produced from a fresh radius-5 board by five `setSymbol` writes and holds
five crosses in a horizontal row, yet `checkStatus` reports blank — because
`Board.fits` is inverted, the scan's outer `while` guard is false at every
start corner and no cell is ever examined. -/
theorem c1_win_scan_misses_five_in_a_row :
    (((mkBoard 5).setSymbol ⟨1, 1⟩ Symbol.CROSS).bind fun b1 =>
      (b1.setSymbol ⟨2, 1⟩ Symbol.CROSS).bind fun b2 =>
      (b2.setSymbol ⟨3, 1⟩ Symbol.CROSS).bind fun b3 =>
      (b3.setSymbol ⟨4, 1⟩ Symbol.CROSS).bind fun b4 =>
      b4.setSymbol ⟨5, 1⟩ Symbol.CROSS) = .ok fiveRowBoard ∧
    (((fiveRowBoard.repr.getD 1 []).getD 0 []).getD 0 Symbol.BLANK = Symbol.CROSS ∧
     ((fiveRowBoard.repr.getD 1 []).getD 1 []).getD 0 Symbol.BLANK = Symbol.CROSS ∧
     ((fiveRowBoard.repr.getD 1 []).getD 2 []).getD 0 Symbol.BLANK = Symbol.CROSS ∧
     ((fiveRowBoard.repr.getD 1 []).getD 3 []).getD 0 Symbol.BLANK = Symbol.CROSS ∧
     ((fiveRowBoard.repr.getD 1 []).getD 4 []).getD 0 Symbol.BLANK = Symbol.CROSS) ∧
    checkStatus 7 fiveRowBoard = .ok Symbol.BLANK := by decide

/-- C2.  A fully legal first move is rejected: on a fresh radius-5 game the
status is blank, cross is to move, the cell (1,1) is blank, and yet
`makeMove((1,1), CROSS)` returns WRONG_PLACE and leaves the game unchanged
(the inverted `fits` makes `getSymbol` return Python `None` for every
in-bounds cell, and `None != BLANK`). -/
theorem c2_legal_first_move_rejected :
    (Game.init [] 5).status = Symbol.BLANK ∧
    (Game.init [] 5).curTeam = Symbol.CROSS ∧
    (((Game.init [] 5).board.repr.getD 1 []).getD 0 []).getD 0 Symbol.BLANK
      = Symbol.BLANK ∧
    Game.makeMove (Game.init [] 5) ⟨1, 1⟩ Symbol.CROSS
      = .ok (MoveError.WRONG_PLACE, Game.init [] 5) := by decide

/-- C3.  An out-of-bounds read raises instead of returning blank: on a
radius-1 board the position (2,2) is outside the current bounds, yet
`fits` reports `true` for it and `getSymbol` raises IndexError; meanwhile the
in-bounds read at (1,1) yields Python `None` rather than a symbol. -/
theorem c3_out_of_bounds_read_raises :
    Board.fits (mkBoard 1) ⟨2, 2⟩ = true ∧
    Board.getSymbol (mkBoard 1) ⟨2, 2⟩ = .error .indexError ∧
    Board.getSymbol (mkBoard 1) ⟨1, 1⟩ = .ok none := by decide

/-- C4.  Request decoding is not total: a MakeMove payload whose x-coordinate
is zero makes `deserializeFrom` raise AssertionError (via the `Position`
constructor), and a JoinGame payload whose symbol field holds 5 makes it
raise ValueError (via the `Symbol` enum constructor) — neither input yields
the "not decodable" `none` result. -/
theorem c4_decoders_raise_on_malformed_input :
    MakeMoveRequest.deserializeFrom ⟨[0, 0, 0, 0, 0, 0, 0, 0, 0, 1], 0⟩ 10
      = .error .assertionError ∧
    JoinGameRequest.deserializeFrom ⟨[0, 0, 0, 0, 0, 5], 0⟩ 6
      = .error .valueError := by decide

/-- A session state holding a single cookie issued at time 0. -/
def c6State : ServerProcess :=
  { games := [], players := [], nextPlayerId := 1,
    cookieToPlayer := [], cookies := [([1], 0)] }

/-- The same session state with the cookie timestamped in the future,
at time 2000. -/
def c6FutureState : ServerProcess :=
  { games := [], players := [], nextPlayerId := 1,
    cookieToPlayer := [], cookies := [([1], 2000)] }

/-- C6.  The cookie sweep keeps expired cookies: at `now = 1000` a cookie
issued at time 0 is 1000 seconds old — beyond the 600-second TTL — yet
`cleanupOldCookies` leaves the state untouched; conversely a cookie
timestamped 1000 seconds in the *future* is the one that gets deleted,
because the source compares `actuality - now > cookieTimeout` with the
operands swapped. -/
theorem c6_sweep_keeps_expired_cookie :
    ((1000 : Int) - 0 > cookieTimeout ∧ cleanupOldCookies c6State 1000 = c6State) ∧
    cleanupOldCookies c6FutureState 1000 = { c6FutureState with cookies := [] } := by
  decide

/-- The board object as it stands after a `setSymbol` call returns or raises:
the `IndexError` in `setSymbol` is raised by the `oldSym` read, before any
field of the board is assigned, so on an exception the board is unchanged. -/
def boardAfterSet (b : Board) (pos : Position) (sym : Symbol) : Board :=
  match b.setSymbol pos sym with
  | .ok b2 => b2
  | .error _ => b

/-- Whenever `getReprIndex` yields a triple, its in-quadrant indices are
`|x| - 1` and `|y| - 1`. -/
lemma getReprIndex_indices (pos : Position) (q i j : Nat)
    (h : Board.getReprIndex pos = some (q, i, j)) :
    i = pos.x.natAbs - 1 ∧ j = pos.y.natAbs - 1 := by
  revert h
  unfold Board.getReprIndex
  split_ifs <;> intro h <;> simp only [Option.some.injEq, Prod.mk.injEq] at h <;>
    omega

/-- C8.  Hash blindness near the axes: for every board, symbol and position
with `|x| = 1` or `|y| = 1`, a `setSymbol` call leaves the board's hash
unchanged, because the per-cell contribution `sym * q² * i * j` vanishes when
the cell index `i` or `j` is zero. -/
theorem c8_hash_blind_near_axes (b : Board) (pos : Position) (sym : Symbol)
    (h : pos.x.natAbs = 1 ∨ pos.y.natAbs = 1) :
    (boardAfterSet b pos sym).hash = b.hash := by
  rcases hgi : Board.getReprIndex pos with _ | ⟨q, i, j⟩
  · simp [boardAfterSet, Board.setSymbol, hgi]
  · obtain ⟨hi, hj⟩ := getReprIndex_indices pos q i j hgi
    have h0 : i = 0 ∨ j = 0 := by
      rcases h with h | h
      · left; omega
      · right; omega
    rcases hc : b.cellAt q i j with _ | oldSym
    · simp [boardAfterSet, Board.setSymbol, hgi, hc]
    · have z1 : hashForPos q i j oldSym = 0 := by
        rcases h0 with h0 | h0 <;> simp [hashForPos, h0]
      have z2 : hashForPos q i j sym = 0 := by
        rcases h0 with h0 | h0 <;> simp [hashForPos, h0]
      simp [boardAfterSet, Board.setSymbol, hgi, hc, z1, z2]

/-- Witness for C8 at the concrete input `(1, 2)` on a fresh radius-2
board. -/
theorem c8_hash_blind_near_axes_witness :
    ((1 : Int).natAbs = 1 ∨ (2 : Int).natAbs = 1) ∧
    (boardAfterSet (mkBoard 2) ⟨1, 2⟩ Symbol.CROSS).hash = (mkBoard 2).hash :=
  ⟨Or.inl (by decide),
   c8_hash_blind_near_axes (mkBoard 2) ⟨1, 2⟩ Symbol.CROSS (Or.inl (by decide))⟩

/-- `invertTeam` never produces blank from a non-blank team. -/
lemma invertTeam_ne_blank {s : Symbol} (h : s ≠ Symbol.BLANK) :
    invertTeam s ≠ Symbol.BLANK := by
  cases s <;> simp [invertTeam] at *

/-- Every outcome of `Game.makeMove` keeps the status and keeps the current
team non-blank: no branch of the source assigns `status`, and the only
assignment to `curTeam` goes through `invertTeam`. -/
lemma makeMove_preserves (g : Game) (pos : Position) (sym : Symbol)
    (e : MoveError) (g' : Game) (hm : g.makeMove pos sym = .ok (e, g')) :
    g'.status = g.status ∧ (g.curTeam ≠ Symbol.BLANK → g'.curTeam ≠ Symbol.BLANK) := by
  unfold Game.makeMove at hm
  split at hm
  · simp only [Except.ok.injEq, Prod.mk.injEq] at hm
    obtain ⟨-, hg⟩ := hm
    subst hg; exact ⟨rfl, id⟩
  split at hm
  · simp only [Except.ok.injEq, Prod.mk.injEq] at hm
    obtain ⟨-, hg⟩ := hm
    subst hg; exact ⟨rfl, id⟩
  split at hm
  · exact Except.noConfusion hm
  split at hm
  · simp only [Except.ok.injEq, Prod.mk.injEq] at hm
    obtain ⟨-, hg⟩ := hm
    subst hg; exact ⟨rfl, id⟩
  split at hm
  · simp only [Except.ok.injEq, Prod.mk.injEq] at hm
    obtain ⟨-, hg⟩ := hm
    subst hg; exact ⟨rfl, id⟩
  split at hm
  · exact Except.noConfusion hm
  · simp only [Except.ok.injEq, Prod.mk.injEq] at hm
    obtain ⟨-, hg⟩ := hm
    subst hg
    exact ⟨rfl, fun h => invertTeam_ne_blank h⟩

/-- In every reachable game state the status is still blank (no branch of
`Game.makeMove` in `model.py` writes it) and the team to move is cross or
nought. -/
lemma reachable_invariant {g : Game} (h : Game.Reachable g) :
    g.status = Symbol.BLANK ∧ g.curTeam ≠ Symbol.BLANK := by
  induction h with
  | init players r hr => exact ⟨rfl, by simp [Game.init]⟩
  | step g pos sym e g' hr hm ih =>
    have hp := makeMove_preserves g pos sym e g' hm
    exact ⟨hp.1.trans ih.1, hp.2 ih.2⟩

/-- C9.  WRONG_SYMBOL is unreachable: in every game state reachable from a
fresh game the current team is cross or nought — never blank — so a move
claiming the blank symbol is rejected by the earlier turn check with
WRONG_TEAM, and no `makeMove` call ever returns WRONG_SYMBOL. -/
theorem c9_wrong_symbol_unreachable (g : Game) (pos : Position) (sym : Symbol)
    (h : Game.Reachable g) :
    g.curTeam ≠ Symbol.BLANK ∧
    g.makeMove pos Symbol.BLANK = .ok (MoveError.WRONG_TEAM, g) ∧
    (g.makeMove pos sym).toOption.map Prod.fst ≠ some MoveError.WRONG_SYMBOL := by
  obtain ⟨hst, hct⟩ := reachable_invariant h
  refine ⟨hct, ?_, ?_⟩
  · unfold Game.makeMove
    rw [if_neg (by simp [hst]), if_pos hct]
  · unfold Game.makeMove
    rw [if_neg (by simp [hst])]
    by_cases hts : g.curTeam ≠ sym
    · rw [if_pos hts]
      simp [Except.toOption]
    · rw [if_neg hts]
      push_neg at hts
      have hsym : sym ≠ Symbol.BLANK := hts ▸ hct
      rcases hgs : (g.board.makeFit pos).getSymbol pos with e' | v <;>
        simp only [hgs]
      · simp [Except.toOption]
      · by_cases h3 : v ≠ some Symbol.BLANK
        · rw [if_pos h3]
          simp [Except.toOption]
        · rw [if_neg h3, if_neg hsym]
          rcases hss : (g.board.makeFit pos).setSymbol pos sym with e' | b2 <;>
            simp [hss, Except.toOption]

/-- Witness for C9 on a fresh radius-3 game, moving at (1,1). -/
theorem c9_wrong_symbol_unreachable_witness :
    (Game.init [] 3).curTeam ≠ Symbol.BLANK ∧
    Game.makeMove (Game.init [] 3) ⟨1, 1⟩ Symbol.BLANK
      = .ok (MoveError.WRONG_TEAM, Game.init [] 3) ∧
    (Game.makeMove (Game.init [] 3) ⟨1, 1⟩ Symbol.CROSS).toOption.map Prod.fst
      ≠ some MoveError.WRONG_SYMBOL :=
  c9_wrong_symbol_unreachable (Game.init [] 3) ⟨1, 1⟩ Symbol.CROSS
    (Game.Reachable.init [] 3 (by decide))

/-- Unfolding equation for `alookup` on a cons cell. -/
lemma alookup_cons {α β : Type} [DecidableEq α] (q a : α) (b : β)
    (t : List (α × β)) :
    alookup q ((a, b) :: t) = if a = q then some b else alookup q t := rfl

/-- Unfolding equation for `aupdate` on a cons cell. -/
lemma aupdate_cons {α β : Type} [DecidableEq α] (k a : α) (v b : β)
    (t : List (α × β)) :
    aupdate k v ((a, b) :: t) = (if a = k then (k, v) else (a, b)) :: aupdate k v t :=
  rfl

/-- Looking up the updated key finds the new value (when the key was
present at all, as the Python dict write to an existing key guarantees). -/
lemma alookup_aupdate_self {α β : Type} [DecidableEq α] (k : α) (v : β)
    (l : List (α × β)) :
    alookup k (aupdate k v l) = (alookup k l).map fun _ => v := by
  induction l with
  | nil => rfl
  | cons p t ih =>
    obtain ⟨a, b⟩ := p
    rw [aupdate_cons]
    by_cases h : a = k
    · rw [if_pos h, alookup_cons, if_pos rfl, alookup_cons, if_pos h]
      rfl
    · rw [if_neg h, alookup_cons, if_neg h, alookup_cons, if_neg h, ih]

/-- Looking up any other key is unaffected by an update. -/
lemma alookup_aupdate_ne {α β : Type} [DecidableEq α] {q k : α} (h : q ≠ k)
    (v : β) (l : List (α × β)) :
    alookup q (aupdate k v l) = alookup q l := by
  induction l with
  | nil => rfl
  | cons p t ih =>
    obtain ⟨a, b⟩ := p
    rw [aupdate_cons]
    by_cases hak : a = k
    · have hkq : ¬(k = q) := fun hh => h hh.symm
      have haq : ¬(a = q) := by rw [hak]; exact hkq
      rw [if_pos hak, alookup_cons, if_neg hkq, alookup_cons, if_neg haq, ih]
    · rw [if_neg hak, alookup_cons, alookup_cons, ih]

/-- `filterMap` only depends on the function's values on the list. -/
lemma filterMap_congr_list {α β : Type} {f g : α → Option β} :
    ∀ l : List α, (∀ a ∈ l, f a = g a) → l.filterMap f = l.filterMap g
  | [], _ => rfl
  | a :: t, h => by
    have ht := filterMap_congr_list t fun x hx => h x (by simp [hx])
    simp [List.filterMap_cons, h a (by simp), ht]

/-- Updating only the `gameId` field of one player does not change the
symbol list the `joinGame` filter computes. -/
lemma occupantSymbols_aupdate_gameId (players : List (Nat × Player)) (game : Game)
    (pid : Nat) (player : Player) (gid : Int)
    (hp : alookup pid players = some player) :
    occupantSymbols (aupdate pid { player with gameId := gid } players) game
      = occupantSymbols players game := by
  unfold occupantSymbols
  congr 1
  apply filterMap_congr_list
  intro q _
  by_cases hq : q = pid
  · subst hq
    rw [alookup_aupdate_self, hp]
    rfl
  · rw [alookup_aupdate_ne hq]

/-- C7.  Automatic symbol assignment: when a bound cookie joins an existing
game requesting the blank symbol, the chosen symbol is the complement of the
first occupant's non-blank symbol when there is one, and otherwise the coin
flip's cross or nought. -/
theorem c7_auto_symbol_assignment
    (st : ServerProcess) (cookie : List Nat) (gameId : Nat) (pick : Bool)
    (pid : Nat) (game : Game) (player : Player)
    (hc : alookup cookie st.cookieToPlayer = some pid)
    (hg : alookup gameId st.games = some game)
    (hp : alookup pid st.players = some player) :
    (occupantSymbols st.players game ≠ [] →
      (joinGame st cookie gameId Symbol.BLANK pick).1.chosenSymbol
        = some (invertTeam ((occupantSymbols st.players game).headD Symbol.BLANK))) ∧
    (occupantSymbols st.players game = [] →
      (joinGame st cookie gameId Symbol.BLANK pick).1.chosenSymbol = some Symbol.CROSS ∨
      (joinGame st cookie gameId Symbol.BLANK pick).1.chosenSymbol
        = some Symbol.NOUGHT) := by
  have hbridge := occupantSymbols_aupdate_gameId st.players game pid player
    (gameId : Int) hp
  have hkey : (joinGame st cookie gameId Symbol.BLANK pick).1.chosenSymbol
      = some (match occupantSymbols st.players game with
              | s :: _ => invertTeam s
              | [] => if pick then Symbol.CROSS else Symbol.NOUGHT) := by
    simp only [joinGame, hc, hg, hp, hbridge]
    simp
  constructor
  · intro hne
    rw [hkey]
    rcases hs : occupantSymbols st.players game with _ | ⟨s, rest⟩
    · exact absurd hs hne
    · simp
  · intro hnil
    rw [hkey, hnil]
    cases pick
    · right; rfl
    · left; rfl

/-- The concrete session state for the C7 witness: game 5 is occupied by
player 1 (cross); cookie `[9]` belongs to player 2, who has no symbol yet. -/
def c7State : ServerProcess :=
  { games := [(5, { players := [1], curTeam := Symbol.CROSS,
                    status := Symbol.BLANK, board := mkBoard 1 })]
    players := [(1, { id := 1, gameId := 5, name := "A", sym := Symbol.CROSS }),
                (2, { id := 2, gameId := -1, name := "B", sym := Symbol.BLANK })]
    nextPlayerId := 3
    cookieToPlayer := [([9], 2)]
    cookies := [([9], 0)] }

/-- Witness for C7: joining game 5 of `c7State` with a blank request yields
nought, the complement of the first occupant's cross. -/
theorem c7_auto_symbol_assignment_witness :
    (occupantSymbols c7State.players
        { players := [1], curTeam := Symbol.CROSS,
          status := Symbol.BLANK, board := mkBoard 1 } ≠ [] →
      (joinGame c7State [9] 5 Symbol.BLANK true).1.chosenSymbol
        = some (invertTeam ((occupantSymbols c7State.players
            { players := [1], curTeam := Symbol.CROSS,
              status := Symbol.BLANK, board := mkBoard 1 }).headD Symbol.BLANK))) ∧
    (occupantSymbols c7State.players
        { players := [1], curTeam := Symbol.CROSS,
          status := Symbol.BLANK, board := mkBoard 1 } = [] →
      (joinGame c7State [9] 5 Symbol.BLANK true).1.chosenSymbol = some Symbol.CROSS ∨
      (joinGame c7State [9] 5 Symbol.BLANK true).1.chosenSymbol
        = some Symbol.NOUGHT) :=
  c7_auto_symbol_assignment c7State [9] 5 true 2
    { players := [1], curTeam := Symbol.CROSS,
      status := Symbol.BLANK, board := mkBoard 1 }
    { id := 2, gameId := -1, name := "B", sym := Symbol.BLANK }
    (by decide) (by decide) (by decide)

/-- C10.  A `joinGame` rejected with ALREADY_IN_USE is not atomic: the whole
post-state is pinned — it is the input state with exactly one change, the
requesting player's heap entry rewritten to carry the requested game id
(`aupdate` replaces the entry at `pid` and maps every other entry to
itself).  In particular the games, cookies and cookie-binding maps are
untouched, the target game (its player list and board) is unchanged, every
other player's entry is unchanged, and the requester keeps its symbol — but
its `gameId` field has already been set, because the source assigns it
before the symbol check. -/
theorem c10_join_already_in_use_not_atomic
    (st : ServerProcess) (cookie : List Nat) (gameId : Nat) (symbol : Symbol)
    (pick : Bool) (pid : Nat) (game : Game) (player : Player)
    (hc : alookup cookie st.cookieToPlayer = some pid)
    (hg : alookup gameId st.games = some game)
    (hp : alookup pid st.players = some player)
    (hsym : symbol ≠ Symbol.BLANK)
    (hocc : occupantSymbols st.players game ≠ []) :
    joinGame st cookie gameId symbol pick
        = (⟨ProcessResponseError.ALREADY_IN_USE, none, none⟩,
           { st with players :=
               aupdate pid { player with gameId := (gameId : Int) } st.players }) ∧
    (joinGame st cookie gameId symbol pick).2.games = st.games ∧
    (joinGame st cookie gameId symbol pick).2.cookies = st.cookies ∧
    (joinGame st cookie gameId symbol pick).2.cookieToPlayer = st.cookieToPlayer ∧
    alookup gameId (joinGame st cookie gameId symbol pick).2.games = some game ∧
    alookup pid (joinGame st cookie gameId symbol pick).2.players
        = some { player with gameId := (gameId : Int) } ∧
    (joinGame st cookie gameId symbol pick).2.players.map Prod.fst
        = st.players.map Prod.fst ∧
    ((joinGame st cookie gameId symbol pick).2.players.map fun p =>
        if p.1 = pid then none else some p.2)
        = (st.players.map fun p => if p.1 = pid then none else some p.2) := by
  have hbridge := occupantSymbols_aupdate_gameId st.players game pid player
    (gameId : Int) hp
  have hjoin : joinGame st cookie gameId symbol pick
      = (⟨ProcessResponseError.ALREADY_IN_USE, none, none⟩,
         { st with players :=
             aupdate pid { player with gameId := (gameId : Int) } st.players }) := by
    simp only [joinGame, hc, hg, hp]
    rw [if_pos]
    exact ⟨hsym, by rw [hbridge]; exact hocc⟩
  rw [hjoin]
  refine ⟨rfl, rfl, rfl, rfl, hg, ?_, ?_, ?_⟩
  · rw [alookup_aupdate_self, hp]
    rfl
  · show (List.map _ (st.players.map _)) = _
    rw [List.map_map]
    apply List.map_congr_left
    intro p _
    by_cases h : p.1 = pid
    · simp [Function.comp, h]
    · simp [Function.comp, h]
  · show (List.map _ (st.players.map _)) = _
    rw [List.map_map]
    apply List.map_congr_left
    intro p _
    by_cases h : p.1 = pid
    · simp [Function.comp, h]
    · simp [Function.comp, h]

/-- The concrete session state for the C10 witness: game 7 already has the
cross player 1; cookie `[3]` belongs to player 2, who requests cross as
well. -/
def c10State : ServerProcess :=
  { games := [(7, { players := [1], curTeam := Symbol.CROSS,
                    status := Symbol.BLANK, board := mkBoard 2 })]
    players := [(1, { id := 1, gameId := 7, name := "A", sym := Symbol.CROSS }),
                (2, { id := 2, gameId := -1, name := "B", sym := Symbol.BLANK })]
    nextPlayerId := 3
    cookieToPlayer := [([3], 2)]
    cookies := [([3], 10)] }

/-- The state the C10 theorem predicts after the rejected join: `c10State`
with only player 2's `gameId` rewritten to 7. -/
def c10Post : ServerProcess :=
  { c10State with
    players := aupdate 2 ({ id := 2, gameId := (7 : Int), name := "B",
                            sym := Symbol.BLANK } : Player) c10State.players }

/-- Witness for C10: requesting cross on the occupied game 7 of `c10State`
fails with ALREADY_IN_USE while the requester's `gameId` is already 7 and
everything else in the state is untouched. -/
theorem c10_join_already_in_use_not_atomic_witness :
    joinGame c10State [3] 7 Symbol.CROSS false
        = (⟨ProcessResponseError.ALREADY_IN_USE, none, none⟩, c10Post) ∧
    (joinGame c10State [3] 7 Symbol.CROSS false).2.games = c10State.games ∧
    (joinGame c10State [3] 7 Symbol.CROSS false).2.cookies = c10State.cookies ∧
    (joinGame c10State [3] 7 Symbol.CROSS false).2.cookieToPlayer
        = c10State.cookieToPlayer ∧
    alookup 7 (joinGame c10State [3] 7 Symbol.CROSS false).2.games
        = some { players := [1], curTeam := Symbol.CROSS,
                 status := Symbol.BLANK, board := mkBoard 2 } ∧
    alookup 2 (joinGame c10State [3] 7 Symbol.CROSS false).2.players
        = some { id := 2, gameId := (7 : Int), name := "B", sym := Symbol.BLANK } ∧
    (joinGame c10State [3] 7 Symbol.CROSS false).2.players.map Prod.fst
        = c10State.players.map Prod.fst ∧
    ((joinGame c10State [3] 7 Symbol.CROSS false).2.players.map fun p =>
        if p.1 = 2 then none else some p.2)
        = (c10State.players.map fun p => if p.1 = 2 then none else some p.2) :=
  c10_join_already_in_use_not_atomic c10State [3] 7 Symbol.CROSS false 2
    { players := [1], curTeam := Symbol.CROSS,
      status := Symbol.BLANK, board := mkBoard 2 }
    { id := 2, gameId := -1, name := "B", sym := Symbol.BLANK }
    (by decide) (by decide) (by decide) (by decide) (by decide)

/-- The class invariant every constructor-produced board satisfies: four
quarters, each a square of side `getRadius`, with a positive radius
(`Board.__init__` asserts `radius > 0` and `increaseRadius` preserves the
shape). -/
def wellFormed (b : Board) : Prop :=
  b.repr.length = 4 ∧ 1 ≤ b.getRadius ∧
    ∀ quarter ∈ b.repr, quarter.length = b.getRadius ∧
      ∀ row ∈ quarter, row.length = b.getRadius

/-- Reading a list back cell by cell over `range` reproduces it (through any
per-element function). -/
lemma map_range_getD {α β : Type} (l : List α) (d : α) (F : α → β) :
    (List.range l.length).map (fun i => F (l.getD i d)) = l.map F := by
  induction l with
  | nil => rfl
  | cons a t ih =>
    rw [List.length_cons, List.range_succ_eq_map, List.map_cons, List.map_map]
    congr 1

/-- Special case of `map_range_getD` for the identity. -/
lemma map_range_getD_id {α : Type} (l : List α) (d : α) :
    (List.range l.length).map (fun i => l.getD i d) = l := by
  have h := map_range_getD l d id
  simpa using h

/-- A `flatMap` whose pieces all have length `m` has length `l.length * m`. -/
lemma length_flatMap_const {α β : Type} (l : List α) (f : α → List β) (m : Nat)
    (h : ∀ x ∈ l, (f x).length = m) : (l.flatMap f).length = l.length * m := by
  induction l with
  | nil => simp
  | cons a t ih =>
    rw [List.flatMap_cons, List.length_append, h a (by simp),
      ih fun x hx => h x (by simp [hx]), List.length_cons]
    ring

/-- Indexing into a `flatMap` over `range n` of constant-length pieces:
position `i * m + j` lands at offset `j` of piece `i`. -/
lemma getElem?_flatMap_range {β : Type} (n : Nat) :
    ∀ (m : Nat) (f : Nat → List β), (∀ k, k < n → (f k).length = m) →
      ∀ i j, i < n → j < m →
        ((List.range n).flatMap f)[i * m + j]? = (f i)[j]? := by
  induction n with
  | zero => intro m f _ i j hi _; omega
  | succ n ih =>
    intro m f h i j hi hj
    rw [List.range_succ, List.flatMap_append]
    have hlen : ((List.range n).flatMap f).length = n * m := by
      rw [length_flatMap_const (List.range n) f m
        fun x hx => h x (by have := List.mem_range.mp hx; omega), List.length_range]
    by_cases hin : i < n
    · have hidx : i * m + j < ((List.range n).flatMap f).length := by
        rw [hlen]
        have h1 : i * m + j < (i + 1) * m := by rw [Nat.succ_mul]; omega
        have h2 : (i + 1) * m ≤ n * m := Nat.mul_le_mul_right m hin
        omega
      rw [List.getElem?_append, if_pos hidx]
      exact ih m f (fun k hk => h k (by omega)) i j hin hj
    · have hieq : i = n := by omega
      subst hieq
      rw [List.getElem?_append_right (by rw [hlen]; omega), hlen]
      have hsub : i * m + j - i * m = j := by omega
      rw [hsub, List.flatMap_cons, List.flatMap_nil, List.append_nil]

/-- The byte of `dumpByteRepr` at flat index `q·r² + i·r + j` is exactly the
cell `(q, i, j)`. -/
lemma dump_getElem (b : Board) (q i j : Nat) (hq : q < 4)
    (hi : i < b.getRadius) (hj : j < b.getRadius) :
    b.dumpByteRepr[q * (b.getRadius * b.getRadius) + i * b.getRadius + j]?
      = some (symbolToNat (((b.repr.getD q []).getD i []).getD j Symbol.BLANK)) := by
  unfold Board.dumpByteRepr
  have hidx : q * (b.getRadius * b.getRadius) + i * b.getRadius + j
      = q * (b.getRadius * b.getRadius) + (i * b.getRadius + j) := by omega
  rw [hidx]
  rw [getElem?_flatMap_range 4 (b.getRadius * b.getRadius) _
    (fun k _ => by
      rw [length_flatMap_const (List.range b.getRadius) _ b.getRadius
        (fun x _ => by rw [List.length_map, List.length_range]), List.length_range])
    q _ hq
    (by
      have h1 : i * b.getRadius + j < (i + 1) * b.getRadius := by
        rw [Nat.succ_mul]; omega
      have h2 : (i + 1) * b.getRadius ≤ b.getRadius * b.getRadius :=
        Nat.mul_le_mul_right _ hi
      omega)]
  rw [getElem?_flatMap_range b.getRadius b.getRadius _
    (fun k _ => by rw [List.length_map, List.length_range]) i j hi hj]
  rw [List.getElem?_map, List.getElem?_range hj]
  rfl

/-- `dumpByteRepr` always yields `4 · r²` bytes. -/
lemma dump_length (b : Board) :
    b.dumpByteRepr.length = 4 * (b.getRadius * b.getRadius) := by
  unfold Board.dumpByteRepr
  rw [length_flatMap_const _ _ (b.getRadius * b.getRadius)
    (fun x _ => by
      rw [length_flatMap_const (List.range b.getRadius) _ b.getRadius
        (fun y _ => by rw [List.length_map, List.length_range]), List.length_range]),
    List.length_range]

/-- A `mapM` over `Except` whose steps all succeed is the `map` of the
values. -/
lemma mapM_ok {α β : Type} (f : α → Except PyExn β) (g : α → β) :
    ∀ l : List α, (∀ x ∈ l, f x = .ok (g x)) → l.mapM f = .ok (l.map g)
  | [], _ => rfl
  | a :: t, h => by
    rw [List.mapM_cons, h a (by simp),
      mapM_ok f g t fun x hx => h x (by simp [hx])]
    rfl

/-- The enum value round-trips through the checked constructor. -/
lemma symbolOfNat_symbolToNat (s : Symbol) : symbolOfNat (symbolToNat s) = some s := by
  cases s <;> rfl

/-- `getRadius` of a fresh board is its construction radius. -/
lemma getRadius_mkBoard (r : Nat) : (mkBoard r).getRadius = r := by
  simp [mkBoard, Board.getRadius, List.replicate_succ]

/-- Growing a fresh radius-1 board to radius `r ≥ 1` gives the fresh
radius-`r` board. -/
lemma increase_mkBoard {r : Nat} (h : 1 ≤ r) :
    (mkBoard 1).increaseRadius r = mkBoard r := by
  unfold Board.increaseRadius
  rw [getRadius_mkBoard]
  by_cases h1 : r ≤ 1
  · rw [if_pos h1]
    have hr : r = 1 := by omega
    rw [hr]
  · rw [if_neg h1]
    have hr : 1 + (r - 1) = r := by omega
    simp only [mkBoard, List.map_replicate]
    rw [← List.replicate_add, hr, ← List.replicate_add, hr]

/-- C5.  Dump/load round trip: loading the byte dump of any (well-formed)
board into a fresh board reproduces the full grid — hence `getSymbol` on the
loaded board agrees with the original at every position (in particular at
every position within the dumped radius); only the incremental hash is reset
to zero, as `loadByteRepr` never touches it. -/
theorem c5_dump_load_roundtrip (b : Board) (hwf : wellFormed b) :
    Board.loadByteRepr (mkBoard 1) b.dumpByteRepr
        = .ok { repr := b.repr, hash := 0 } ∧
    Board.getSymbol { repr := b.repr, hash := 0 } = b.getSymbol := by
  obtain ⟨h4, hr1, hq⟩ := hwf
  have hsq : Nat.sqrt b.dumpByteRepr.length / 2 = b.getRadius := by
    have hlen : b.dumpByteRepr.length = (2 * b.getRadius) * (2 * b.getRadius) := by
      rw [dump_length]; ring
    rw [hlen, Nat.sqrt_eq]
    omega
  have hinner : ∀ q, q < 4 → ∀ i, i < b.getRadius →
      (List.range b.getRadius).mapM (fun j => do
          let byte ← exceptOfOption PyExn.indexError
            b.dumpByteRepr[q * (b.getRadius * b.getRadius) + i * b.getRadius + j]?
          exceptOfOption PyExn.valueError (symbolOfNat byte))
        = .ok ((List.range b.getRadius).map fun j =>
            ((b.repr.getD q []).getD i []).getD j Symbol.BLANK) := by
    intro q hqlt i hi
    apply mapM_ok
    intro j hj
    have hjr : j < b.getRadius := List.mem_range.mp hj
    rw [dump_getElem b q i j hqlt hi hjr]
    generalize ((b.repr.getD q []).getD i []).getD j Symbol.BLANK = s
    cases s <;> rfl
  have hmid : ∀ q, q < 4 →
      (List.range b.getRadius).mapM (fun i =>
        (List.range b.getRadius).mapM (fun j => do
          let byte ← exceptOfOption PyExn.indexError
            b.dumpByteRepr[q * (b.getRadius * b.getRadius) + i * b.getRadius + j]?
          exceptOfOption PyExn.valueError (symbolOfNat byte)))
        = .ok ((List.range b.getRadius).map fun i =>
            (List.range b.getRadius).map fun j =>
              ((b.repr.getD q []).getD i []).getD j Symbol.BLANK) := by
    intro q hqlt
    apply mapM_ok
    intro i hi
    exact hinner q hqlt i (List.mem_range.mp hi)
  have houter :
      (List.range 4).mapM (fun q =>
        (List.range b.getRadius).mapM (fun i =>
          (List.range b.getRadius).mapM (fun j => do
            let byte ← exceptOfOption PyExn.indexError
              b.dumpByteRepr[q * (b.getRadius * b.getRadius) + i * b.getRadius + j]?
            exceptOfOption PyExn.valueError (symbolOfNat byte))))
        = .ok ((List.range 4).map fun q =>
            (List.range b.getRadius).map fun i =>
              (List.range b.getRadius).map fun j =>
                ((b.repr.getD q []).getD i []).getD j Symbol.BLANK) := by
    apply mapM_ok
    intro q hqm
    exact hmid q (List.mem_range.mp hqm)
  have hgrid : ((List.range 4).map fun q =>
      (List.range b.getRadius).map fun i =>
        (List.range b.getRadius).map fun j =>
          ((b.repr.getD q []).getD i []).getD j Symbol.BLANK) = b.repr := by
    have hFq : ∀ quarter ∈ b.repr,
        ((List.range b.getRadius).map fun i =>
          (List.range b.getRadius).map fun j =>
            (quarter.getD i []).getD j Symbol.BLANK) = quarter := by
      intro quarter hqm
      obtain ⟨hql, hrow⟩ := hq quarter hqm
      have hRow : ∀ row ∈ quarter,
          ((List.range b.getRadius).map fun j => row.getD j Symbol.BLANK) = row := by
        intro row hrm
        have hrl := hrow row hrm
        rw [← hrl]
        exact map_range_getD_id row Symbol.BLANK
      have h1 := map_range_getD (β := List Symbol) quarter []
        (fun row => (List.range b.getRadius).map fun j => row.getD j Symbol.BLANK)
      have h2 : (quarter.map fun row =>
          (List.range b.getRadius).map fun j => row.getD j Symbol.BLANK) = quarter := by
        rw [List.map_congr_left hRow]
        simp
      exact (hql ▸ h1).trans h2
    have h1 := map_range_getD (β := List (List Symbol)) b.repr []
      (fun quarter => (List.range b.getRadius).map fun i =>
        (List.range b.getRadius).map fun j =>
          (quarter.getD i []).getD j Symbol.BLANK)
    have h2 : (b.repr.map fun quarter =>
        (List.range b.getRadius).map fun i =>
          (List.range b.getRadius).map fun j =>
            (quarter.getD i []).getD j Symbol.BLANK) = b.repr := by
      rw [List.map_congr_left hFq]
      simp
    exact (h4 ▸ h1).trans h2
  constructor
  · simp only [Board.loadByteRepr, hsq, increase_mkBoard hr1, getRadius_mkBoard]
    rw [houter, hgrid]
    rfl
  · funext pos
    rfl

/-- A concrete well-formed board of radius 2 with one cross and one nought. -/
def c5Board : Board :=
  { repr := [[[Symbol.BLANK, Symbol.BLANK], [Symbol.BLANK, Symbol.BLANK]],
             [[Symbol.BLANK, Symbol.BLANK], [Symbol.BLANK, Symbol.CROSS]],
             [[Symbol.BLANK, Symbol.BLANK], [Symbol.BLANK, Symbol.BLANK]],
             [[Symbol.NOUGHT, Symbol.BLANK], [Symbol.BLANK, Symbol.BLANK]]]
    hash := 1 }

/-- Witness for C5 on `c5Board`. -/
theorem c5_dump_load_roundtrip_witness :
    Board.loadByteRepr (mkBoard 1) c5Board.dumpByteRepr
        = .ok { repr := c5Board.repr, hash := 0 } ∧
    Board.getSymbol { repr := c5Board.repr, hash := 0 } = c5Board.getSymbol :=
  c5_dump_load_roundtrip c5Board (by unfold wellFormed; decide)

end TTT
